import Mathlib

/-!
Verification of `Marc2Text2024.py` against its specification.

The script ingests MARC binary catalog files, decodes each record via
`pymarc.MARCReader(fh, to_unicode=True, force_utf8=False)`, cleans the
record's subfields, writes a textual rendering to a per-file output, and
routes per-record failures to an audit log (`failed_records.log`) and a
raw-dump artifact (`raw_failed_records.marc`).  The pymarc library itself
is not part of the repository source; its reader is modelled per the
spec's Record Framer contract (section 4.1): each iteration step yields
either a parsed record, or a typed per-record failure carrying the raw
bytes the framer consumed (`reader.current_chunk`).  Everything else is a
direct shallow embedding of `src/Marc2Text2024.py`.
-/

namespace Marc2Text

/-- A Python object sitting in a field's `subfields` list.  The source's
structural check (line 75) is duck-typed: `if subfield and
hasattr(subfield, 'code') and hasattr(subfield, 'value')`.  We therefore
record truthiness and attribute presence explicitly; `value = none`
models a Python `None` value (the attribute present but null). -/
structure Subfield where
  truthy : Bool
  hasCode : Bool
  hasValue : Bool
  code : String
  value : Option String
deriving Repr, DecidableEq

/-- A MARC field: either a control field (`tag`, raw `data`, no
`subfields` attribute) or a variable field with an ordered subfield
list (pymarc sets the `subfields` attribute only on non-control
fields, so `hasattr(field, 'subfields')` distinguishes the two). -/
inductive Field where
  | control (tag : String) (data : String)
  | varField (tag : String) (indicators : String) (subfields : List Subfield)
deriving Repr, DecidableEq

/-- The tag of a field. -/
def Field.tag : Field → String
  | .control t _ => t
  | .varField t _ _ => t

/-- The subfield list of a field; a control field has none
(`hasattr(field, 'subfields')` is false). -/
def subfieldsOf : Field → List Subfield
  | .control _ _ => []
  | .varField _ _ sfs => sfs

/-- A parsed MARC record: the ordered field list that
`record.get_fields()` iterates over. -/
structure Record where
  fields : List Field
deriving Repr, DecidableEq

/-- First field with the given tag, as in pymarc `record[tag]`. -/
def Record.getField (r : Record) (tag : String) : Option Field :=
  r.fields.find? (fun f => f.tag == tag)

/-- The duck-typed structural check of line 75 of the source:
`subfield and hasattr(subfield, 'code') and hasattr(subfield, 'value')`.
Note it inspects neither the length of `code` nor whether `value`
is null. -/
def subfieldKeep (s : Subfield) : Bool :=
  s.truthy && s.hasCode && s.hasValue

/-- `validate_and_clean_subfields` (source lines 67-81): if the field has
a `subfields` attribute, replace the list with the sublist passing the
duck-typed check, logging each dropped subfield at warning level (the
log is not modelled here); control fields are untouched.  The field
itself is never removed from the record. -/
def validate_and_clean_subfields (f : Field) : Field :=
  match f with
  | .control tag data => .control tag data
  | .varField tag ind sfs => .varField tag ind (sfs.filter subfieldKeep)

/-- `clean_record_fields` (source lines 83-89): clean every field of the
record in place; the field list keeps its length and order. -/
def clean_record_fields (r : Record) : Record :=
  ⟨r.fields.map validate_and_clean_subfields⟩

/-- Textual rendering of a subfield, modelled on pymarc's
`str(Subfield)` contribution (`$a value`). -/
def renderSubfield (s : Subfield) : String :=
  "$" ++ s.code ++ (s.value.getD "")

/-- Textual rendering of one field, modelled on pymarc's
`str(Field)` (`=TAG  ...`). -/
def renderField : Field → String
  | .control tag data => "=" ++ tag ++ "  " ++ data
  | .varField tag ind sfs =>
      "=" ++ tag ++ "  " ++ ind ++ String.join (sfs.map renderSubfield)

/-- Textual rendering of a record, modelled on pymarc's `str(Record)`:
the fields in order, one per line.  The exact layout is pymarc's (not in
the repository source); the claims depend only on one text block being
emitted per record, in order. -/
def renderRecord (r : Record) : String :=
  String.join (r.fields.map (fun f => renderField f ++ "\n"))

/-- One iteration step of `for record in reader` (source line 135),
modelled per the spec's Record Framer contract (section 4.1): the framer
either yields a parsed record, or a typed per-record failure carrying a
reason (the text of the exception raised inside the loop body) and the
raw bytes it consumed for that record (`reader.current_chunk`). -/
inductive ReaderItem where
  | ok (r : Record) (raw : List Nat)
  | bad (reason : String) (raw : List Nat)
deriving Repr, DecidableEq

/-- Environment of fallible external operations: whether opening each
sink raises, whether opening/reading the source file raises, and whether
each `shutil.move` destination raises. -/
structure Env where
  auditOpenFails : Bool
  rawOpenFails : Bool
  fileOpenFails : Bool
  moveToProcessedFails : Bool
  moveToFailedFails : Bool
deriving Repr, DecidableEq

/-- One block appended to `failed_records.log` by `log_failed_record`
(source lines 28-31): file name, optional index, record id (or the
string written when unknown), reason, and the raw payload rendered into
the block (absent when `raw_data` was `None`). -/
structure AuditEntry where
  filename : String
  index : Option Nat
  recordId : String
  reason : String
  rawData : Option (List Nat)
deriving Repr, DecidableEq

/-- Observable state accumulated while processing one file: the strings
appended to the per-file output, the blocks appended to the audit log,
the bytes appended to the raw-dump artifact, the process-log messages
(`marc_processing.log`), the two counters, and `file_has_errors`. -/
structure FileState where
  output : List String
  audit : List AuditEntry
  rawDump : List Nat
  procLog : List String
  recordsProcessed : Nat
  recordsFailed : Nat
  hasErrors : Bool
deriving Repr, DecidableEq

/-- The record id computed on source line 24:
`record['001'] if record and isinstance(record, pymarc.Record) and '001' in record else "Unknown ID"`
(the f-string then renders the field object). -/
def uniqueIdOf (record : Option Record) : String :=
  match record with
  | none => "Unknown ID"
  | some r =>
      match r.getField "001" with
      | some f => renderField f
      | none => "Unknown ID"

/-- `log_failed_record` (source lines 20-32).  The body opens the audit
log with no surrounding try/except, so a failing open raises out of the
function: modelled as `Except`, the error carrying the unchanged state.
On success one block is appended to the audit log and one error line to
the process log. -/
def log_failed_record (env : Env) (record : Option Record) (filename : String)
    (reason : String) (raw_data : Option (List Nat)) (index : Option Nat)
    (st : FileState) : Except FileState FileState :=
  if env.auditOpenFails then
    .error st
  else
    .ok { st with
      audit := st.audit ++
        [{ filename := filename, index := index, recordId := uniqueIdOf record,
           reason := reason, rawData := raw_data }],
      procLog := st.procLog ++
        ["ERROR: Failed Record - File: " ++ filename ++ ", Reason: " ++ reason] }

/-- UTF-8 bytes of a string, for the raw-dump text header
(`.encode('utf-8')` on source line 40). -/
def utf8Bytes (s : String) : List Nat :=
  s.toUTF8.toList.map (fun b => b.toNat)

/-- The header written before the raw bytes of a failed record
(source line 40). -/
def rawHeader (filename : String) (index : Nat) : List Nat :=
  utf8Bytes ("File: " ++ filename ++ ", Record Index: " ++ toString index ++ "\n")

/-- The separator written after the raw bytes (source line 42):
a newline, eighty dashes, a newline. -/
def rawSeparator : List Nat :=
  [10] ++ List.replicate 80 45 ++ [10]

/-- One complete raw-dump block: header, the raw bytes verbatim,
separator. -/
def rawBlock (filename : String) (index : Nat) (raw : List Nat) : List Nat :=
  rawHeader filename index ++ raw ++ rawSeparator

/-- `export_raw_failed_record` (source lines 34-46).  The whole body is
wrapped in try/except: a failing open is logged to the process log and
never propagated; on success the block is appended to the raw-dump
artifact and an info line logged. -/
def export_raw_failed_record (env : Env) (raw_data : List Nat) (filename : String)
    (index : Nat) (st : FileState) : FileState :=
  if env.rawOpenFails then
    { st with procLog := st.procLog ++
        ["ERROR: Failed to export raw data for record in file " ++ filename,
         "ERROR: Debug Info"] }
  else
    { st with
      rawDump := st.rawDump ++ rawBlock filename index raw_data,
      procLog := st.procLog ++
        ["INFO: Exported raw data of failed record from file " ++ filename] }

/-- The body of the record loop (source lines 136-151) for one item, at
one-based `index`.  A parsed record is cleaned, rendered and appended to
the output with a blank-line separator, and the success counter bumped.
A failed record goes to the recovery path: `export_raw_failed_record`
(contained), then `log_failed_record` with `record=None` — if that one
raises, the exception escapes the loop (`Except.error`); otherwise the
failure counter is bumped and `file_has_errors` set. -/
def processRecord (env : Env) (filename : String) (index : Nat) (item : ReaderItem)
    (st : FileState) : Except FileState FileState :=
  match item with
  | .ok r _raw =>
      let cleaned := clean_record_fields r
      .ok { st with
        output := st.output ++ [renderRecord cleaned ++ "\n\n"],
        recordsProcessed := st.recordsProcessed + 1,
        procLog := st.procLog ++
          ["INFO: Processed record " ++ toString index ++ " from file: " ++ filename] }
  | .bad reason raw =>
      let st1 := export_raw_failed_record env raw filename index st
      match log_failed_record env none filename reason (some raw) (some index) st1 with
      | .error st2 => .error st2
      | .ok st2 =>
          .ok { st2 with
            recordsFailed := st2.recordsFailed + 1,
            hasErrors := true,
            procLog := st2.procLog ++ ["ERROR: Debug Info"] }

/-- The record loop (source lines 134-151): `record_index` is incremented
at the top of each iteration, so items are processed at one-based
indices.  An exception escaping one iteration aborts the rest of the
loop (`Except.error`). -/
def process_records (env : Env) (filename : String) :
    List ReaderItem → Nat → FileState → Except FileState FileState
  | [], _, st => .ok st
  | item :: rest, index, st =>
      match processRecord env filename (index + 1) item st with
      | .error st1 => .error st1
      | .ok st1 => process_records env filename rest (index + 1) st1

/-- Where the source file ended up after the per-file run. -/
inductive Disposition where
  | processed
  | failed
  | leftInPlace
deriving Repr, DecidableEq

/-- Result of processing one file: the accumulated state and the file's
final location. -/
structure FileResult where
  state : FileState
  disposition : Disposition
deriving Repr, DecidableEq

/-- The `shutil.move` to the failed folder inside the outer except block
(source lines 163-167): on failure log and keep the file in place, never
re-raise. -/
def moveToFailedOutcome (env : Env) (filename : String) (st : FileState) : FileResult :=
  if env.moveToFailedFails then
    { state := { st with procLog := st.procLog ++
        ["ERROR: Failed to move file " ++ filename ++ " to failed folder"] },
      disposition := .leftInPlace }
  else
    { state := { st with procLog := st.procLog ++
        ["INFO: File moved to failed folder: " ++ filename] },
      disposition := .failed }

/-- The outer except block (source lines 161-169): attempt the move to
the failed folder, then log the file-level error and debug info. -/
def outerExcept (env : Env) (filename : String) (st : FileState) : FileResult :=
  let r := moveToFailedOutcome env filename st
  { r with state := { r.state with procLog := r.state.procLog ++
      ["ERROR: Error processing file: " ++ filename, "ERROR: Debug Info"] } }

/-- State at the top of the per-file try block (line 122 logs the file
being processed; all sinks and counters for this file start empty). -/
def initState (filename : String) : FileState :=
  { output := [], audit := [], rawDump := [],
    procLog := ["INFO: Processing file: " ++ filename],
    recordsProcessed := 0, recordsFailed := 0, hasErrors := false }

/-- Processing of one file (source lines 120-169).  If opening/reading
the file raises, or an exception escapes the record loop, control goes
to the outer except block, which moves the file to the failed folder.
Otherwise the file is moved per `file_has_errors` (lines 153-159); a
failing move raises into the same outer except block. -/
def process_file (env : Env) (filename : String) (items : List ReaderItem) : FileResult :=
  let st0 := initState filename
  if env.fileOpenFails then
    outerExcept env filename st0
  else
    match process_records env filename items 0 st0 with
    | .error st => outerExcept env filename st
    | .ok st =>
        if st.hasErrors then
          if env.moveToFailedFails then
            outerExcept env filename st
          else
            { state := { st with procLog := st.procLog ++
                ["INFO: File moved to failed folder: " ++ filename] },
              disposition := .failed }
        else
          if env.moveToProcessedFails then
            outerExcept env filename st
          else
            { state := { st with procLog := st.procLog ++
                ["INFO: File processed and moved to processed folder: " ++ filename] },
              disposition := .processed }

/-- `os.path.basename`: the component after the last slash, computed by
a left fold that restarts at every slash. -/
def basename (path : String) : String :=
  ⟨path.toList.foldl (fun acc c => if c = '/' then [] else acc ++ [c]) []⟩

/-- Index of the last dot in a character list, if any. -/
def lastDotIdx (cs : List Char) : Option Nat :=
  (List.range cs.length).foldl
    (fun acc i => if cs.getD i ' ' = '.' then some i else acc) none

/-- `os.path.splitext(name)[0]` on a basename: drop the extension
beginning at the last dot, unless every character before that dot is a
dot (CPython semantics for names like `.bashrc`). -/
def splitext_stem (name : String) : String :=
  let cs := name.toList
  match lastDotIdx cs with
  | none => name
  | some d =>
      if (List.range d).any (fun i => cs.getD i ' ' != '.') then
        ⟨cs.take d⟩
      else name

/-- The per-file output path (source lines 129-131):
`os.path.join(output_folder, os.path.splitext(os.path.basename(filename))[0] + '.txt')`,
with the output folder rendered as the `output/` prefix. -/
def output_filename (filename : String) : String :=
  "output/" ++ splitext_stem (basename filename) ++ ".txt"

/-- The output filesystem: for each path, the list of chunks the file
holds (pre-existing content is the chunk list it starts with). -/
def OutputFS : Type := String → List String

/-- Appending chunks to one file of the output filesystem (the output
file is opened with mode `'a'` on source line 132, so writes always
append). -/
def appendOutput (fs : OutputFS) (path : String) (chunks : List String) : OutputFS :=
  fun q => if q = path then fs q ++ chunks else fs q

/-- The file loop of `process_marc_files` (source lines 117-169): each
file is processed in turn, its output appended to the file named by
`output_filename`; the per-file try/except never re-raises, so the loop
always reaches the next file.  Returns the final output filesystem and
the per-file results in order. -/
def process_marc_files (env : Env) :
    List (String × List ReaderItem) → OutputFS → OutputFS × List FileResult
  | [], fs => (fs, [])
  | f :: rest, fs =>
      let r := process_file env f.1 f.2
      let next := process_marc_files env rest
        (appendOutput fs (output_filename f.1) r.state.output)
      (next.1, r :: next.2)

/-- Modelled from the spec: the Charset Normalizer (section 4.2) is
implemented inside the pymarc library (the `MARCReader` `to_unicode`
path and `marc8_to_unicode`), which is not part of this repository's
source; the source's own `clean_marc8_data` merely wraps
`marc8_to_unicode` and is never called.  Per the spec, the normalizer's
input is either content already in canonical Unicode form or
legacy-charset (MARC-8) bytes. -/
inductive NormInput where
  | unicodeText (t : String)
  | legacyBytes (raw : List Nat)
deriving Repr, DecidableEq

/-- Modelled from the spec (section 4.2): already-Unicode content passes
through without legacy transcoding; legacy bytes go through the MARC-8
decode map `decodeLegacy`, which returns `none` when the input is
entirely unrecoverable. -/
def normalizeCharset (decodeLegacy : List Nat → Option String) :
    NormInput → Option String
  | .unicodeText t => some t
  | .legacyBytes raw => decodeLegacy raw

/-- `clean_marc8_data` (source lines 55-65): wrap `marc8_to_unicode`
(pymarc, modelled as the decode map argument), turning a raised
exception into `None`.  The function is defined in the source but never
called by `process_marc_files`. -/
def clean_marc8_data (marc8_to_unicode : List Nat → Option String)
    (raw_data : List Nat) : Option String :=
  marc8_to_unicode raw_data

/-! Specification helpers: the values the record loop is expected to
accumulate, defined directly from the item list. -/

/-- Whether an iteration step is a per-record failure. -/
def ReaderItem.isBad : ReaderItem → Bool
  | .ok _ _ => false
  | .bad _ _ => true

/-- Number of failed records in the stream. -/
def countBad (items : List ReaderItem) : Nat :=
  (items.filter ReaderItem.isBad).length

/-- Number of successfully parsed records in the stream. -/
def countOk (items : List ReaderItem) : Nat :=
  (items.filter (fun i => !i.isBad)).length

/-- The texts the loop writes for the successful records, in stream
order: each record cleaned, rendered, and followed by the blank-line
separator (`'\n\n'`, source line 140). -/
def recordTexts (items : List ReaderItem) : List String :=
  items.filterMap fun i =>
    match i with
    | .ok r _ => some (renderRecord (clean_record_fields r) ++ "\n\n")
    | .bad _ _ => none

/-- The failures of the stream with their one-based indices (starting
from `index`): `(record_index, reason, raw bytes)` triples in order. -/
def failuresWithIndex : List ReaderItem → Nat → List (Nat × String × List Nat)
  | [], _ => []
  | .ok _ _ :: rest, index => failuresWithIndex rest (index + 1)
  | .bad reason raw :: rest, index =>
      (index + 1, reason, raw) :: failuresWithIndex rest (index + 1)

/-- The audit entry the recovery path produces for one failure: the
handler passes `record=None` (source line 148), so the record id is
`uniqueIdOf none`. -/
def mkAuditEntry (filename : String) (f : Nat × String × List Nat) : AuditEntry :=
  { filename := filename, index := some f.1, recordId := uniqueIdOf none,
    reason := f.2.1, rawData := some f.2.2 }

/-- The chunks a run appends to one output path: for each file mapping
to that path, its per-file output in file order. -/
def runAppends (env : Env) : List (String × List ReaderItem) → String → List String
  | [], _ => []
  | f :: rest, path =>
      (if output_filename f.1 = path then (process_file env f.1 f.2).state.output else [])
        ++ runAppends env rest path

/-! Core characterization of the record loop. -/

/-- When the audit log can be opened, the record loop never aborts: it
processes every item, appending the successful texts in order, one audit
entry and one raw-dump block per failure (the latter only when the
raw-dump sink works), counting successes and failures, and setting
`file_has_errors` exactly when some record failed. -/
theorem process_records_spec (env : Env) (filename : String)
    (haudit : env.auditOpenFails = false) :
    ∀ (items : List ReaderItem) (index : Nat) (st : FileState),
      ∃ st', process_records env filename items index st = .ok st' ∧
        st'.output = st.output ++ recordTexts items ∧
        st'.recordsProcessed = st.recordsProcessed + countOk items ∧
        st'.audit = st.audit ++ (failuresWithIndex items index).map (mkAuditEntry filename) ∧
        st'.recordsFailed = st.recordsFailed + countBad items ∧
        st'.hasErrors = (st.hasErrors || decide (0 < countBad items)) ∧
        st'.rawDump = st.rawDump ++ (if env.rawOpenFails then []
          else ((failuresWithIndex items index).map
            (fun f => rawBlock filename f.1 f.2.2)).flatten) := by
  intro items
  induction items with
  | nil =>
      intro index st
      refine ⟨st, rfl, ?_, ?_, ?_, ?_, ?_, ?_⟩ <;>
        simp [recordTexts, countOk, countBad, failuresWithIndex]
  | cons item rest ih =>
      intro index st
      cases item with
      | ok r raw =>
          obtain ⟨st', heq, ho, hp, ha, hf, he, hr⟩ := ih (index + 1)
            { st with
              output := st.output ++ [renderRecord (clean_record_fields r) ++ "\n\n"],
              recordsProcessed := st.recordsProcessed + 1,
              procLog := st.procLog ++
                ["INFO: Processed record " ++ toString (index + 1) ++ " from file: " ++ filename] }
          refine ⟨st', ?_, ?_, ?_, ?_, ?_, ?_, ?_⟩
          · simpa [process_records, processRecord] using heq
          · rw [ho]; simp [recordTexts]
          · rw [hp]; simp [countOk, ReaderItem.isBad]; omega
          · rw [ha]; simp [failuresWithIndex]
          · rw [hf]; simp [countBad, ReaderItem.isBad]
          · rw [he]; simp [countBad, ReaderItem.isBad]
          · rw [hr]; simp [failuresWithIndex]
      | bad reason raw =>
          obtain ⟨st', heq, ho, hp, ha, hf, he, hr⟩ := ih (index + 1)
            { export_raw_failed_record env raw filename (index + 1) st with
              audit := st.audit ++
                [{ filename := filename, index := some (index + 1),
                   recordId := uniqueIdOf none, reason := reason, rawData := some raw }],
              procLog := (export_raw_failed_record env raw filename (index + 1) st).procLog ++
                ["ERROR: Failed Record - File: " ++ filename ++ ", Reason: " ++ reason] ++
                ["ERROR: Debug Info"],
              recordsFailed := st.recordsFailed + 1,
              hasErrors := true }
          refine ⟨st', ?_, ?_, ?_, ?_, ?_, ?_, ?_⟩
          · rw [← heq]
            simp only [process_records, processRecord, log_failed_record, haudit,
              Bool.false_eq_true, if_false]
            rcases hb : env.rawOpenFails <;>
              simp [export_raw_failed_record, hb]
          · rw [ho]
            rcases hb : env.rawOpenFails <;>
              simp [export_raw_failed_record, hb, recordTexts]
          · rw [hp]
            rcases hb : env.rawOpenFails <;>
              simp [export_raw_failed_record, hb, countOk, ReaderItem.isBad]
          · rw [ha]; simp [failuresWithIndex, mkAuditEntry]
          · rw [hf]
            simp [countBad, ReaderItem.isBad]; omega
          · rw [he]
            simp [countBad, ReaderItem.isBad]
          · rw [hr]
            rcases hb : env.rawOpenFails <;>
              simp [export_raw_failed_record, hb, failuresWithIndex, rawBlock]

/-! Counting lemmas. -/

theorem countOk_add_countBad (items : List ReaderItem) :
    countOk items + countBad items = items.length := by
  induction items with
  | nil => rfl
  | cons item rest ih =>
      cases item <;> simp [countOk, countBad, ReaderItem.isBad] at * <;> omega

theorem recordTexts_length (items : List ReaderItem) :
    (recordTexts items).length = countOk items := by
  induction items with
  | nil => rfl
  | cons item rest ih =>
      cases item <;> simp [recordTexts, countOk, ReaderItem.isBad] at * <;> omega

theorem failuresWithIndex_length (items : List ReaderItem) :
    ∀ index, (failuresWithIndex items index).length = countBad items := by
  induction items with
  | nil => intro index; rfl
  | cons item rest ih =>
      intro index
      cases item <;> simp [failuresWithIndex, countBad, ReaderItem.isBad, ih] at *

/-- Under a working audit sink and a readable file, the per-file result
keeps the loop's final state (only the process log gains the
move-related lines) and the disposition follows `file_has_errors`. -/
theorem process_file_state (env : Env) (filename : String) (items : List ReaderItem)
    (haudit : env.auditOpenFails = false) (hopen : env.fileOpenFails = false)
    (hmf : env.moveToFailedFails = false) (hmp : env.moveToProcessedFails = false) :
    ∃ st' L, process_records env filename items 0 (initState filename) = .ok st' ∧
      (process_file env filename items).state = { st' with procLog := L } ∧
      (process_file env filename items).disposition =
        (if st'.hasErrors then .failed else .processed) := by
  obtain ⟨st', heq, -⟩ := process_records_spec env filename haudit items 0 (initState filename)
  rcases hsb : st'.hasErrors with _ | _
  · refine ⟨st', st'.procLog ++
        ["INFO: File processed and moved to processed folder: " ++ filename],
        heq, ?_, ?_⟩ <;>
      simp [process_file, hopen, heq, hsb, hmp]
  · refine ⟨st', st'.procLog ++
        ["INFO: File moved to failed folder: " ++ filename],
        heq, ?_, ?_⟩ <;>
      simp [process_file, hopen, heq, hsb, hmf]

/-! Concrete sample data used by the witnesses. -/

/-- An environment in which every external operation succeeds. -/
def benignEnv : Env :=
  { auditOpenFails := false, rawOpenFails := false, fileOpenFails := false,
    moveToProcessedFails := false, moveToFailedFails := false }

/-- A structurally valid subfield. -/
def sampleSubfield : Subfield :=
  { truthy := true, hasCode := true, hasValue := true, code := "a", value := some "Title" }

/-- A small sample record with a control field and one variable field. -/
def sampleRecord : Record :=
  ⟨[.control "001" "12345", .varField "245" "10" [sampleSubfield]]⟩

/-- A sample stream: success, failure, success. -/
def sampleItems : List ReaderItem :=
  [.ok sampleRecord [0, 1], .bad "decode error" [2, 3], .ok sampleRecord [4]]

/-- Claim C1: for an input file of N records of which exactly K are
individually malformed, the record loop emits exactly N-K record texts,
logs exactly K audit failure entries, counts N-K successes and K
failures (so iteration covers every record despite failures), and the
file is moved to the failed folder iff K > 0. -/
theorem per_record_failure_isolation (env : Env) (filename : String)
    (items : List ReaderItem)
    (haudit : env.auditOpenFails = false)
    (hopen : env.fileOpenFails = false)
    (hmf : env.moveToFailedFails = false)
    (hmp : env.moveToProcessedFails = false) :
    (process_file env filename items).state.output.length
        = items.length - countBad items ∧
    (process_file env filename items).state.audit.length = countBad items ∧
    (process_file env filename items).state.recordsProcessed
        = items.length - countBad items ∧
    (process_file env filename items).state.recordsFailed = countBad items ∧
    (process_file env filename items).state.recordsProcessed
        + (process_file env filename items).state.recordsFailed = items.length ∧
    ((process_file env filename items).disposition = Disposition.failed
        ↔ 0 < countBad items) := by
  obtain ⟨st', L, heq, hS, hD⟩ :=
    process_file_state env filename items haudit hopen hmf hmp
  obtain ⟨st'', heq', ho, hp, ha, hf, he, hr⟩ :=
    process_records_spec env filename haudit items 0 (initState filename)
  rw [heq] at heq'
  cases heq'
  have hcnt := countOk_add_countBad items
  refine ⟨?_, ?_, ?_, ?_, ?_, ?_⟩
  · rw [hS]
    show st'.output.length = _
    rw [ho]
    simp [initState, recordTexts_length]
    omega
  · rw [hS]
    show st'.audit.length = _
    rw [ha]
    simp [initState, failuresWithIndex_length]
  · rw [hS]
    show st'.recordsProcessed = _
    rw [hp]
    simp [initState]
    omega
  · rw [hS]
    show st'.recordsFailed = _
    rw [hf]
    simp [initState]
  · rw [hS]
    show st'.recordsProcessed + st'.recordsFailed = _
    rw [hp, hf]
    simp [initState]
    omega
  · rw [hD, he]
    simp only [initState, Bool.false_or]
    by_cases h0 : 0 < countBad items <;> simp [h0]

/-- Witness for C1: the sample stream has three records, one of them
failed; applying the theorem at that concrete input. -/
theorem per_record_failure_isolation_witness :
    benignEnv.auditOpenFails = false ∧
    benignEnv.fileOpenFails = false ∧
    benignEnv.moveToFailedFails = false ∧
    benignEnv.moveToProcessedFails = false ∧
    ((process_file benignEnv "a.mrc" sampleItems).state.output.length
        = sampleItems.length - countBad sampleItems ∧
     (process_file benignEnv "a.mrc" sampleItems).state.audit.length
        = countBad sampleItems ∧
     (process_file benignEnv "a.mrc" sampleItems).state.recordsProcessed
        = sampleItems.length - countBad sampleItems ∧
     (process_file benignEnv "a.mrc" sampleItems).state.recordsFailed
        = countBad sampleItems ∧
     (process_file benignEnv "a.mrc" sampleItems).state.recordsProcessed
        + (process_file benignEnv "a.mrc" sampleItems).state.recordsFailed
        = sampleItems.length ∧
     ((process_file benignEnv "a.mrc" sampleItems).disposition = Disposition.failed
        ↔ 0 < countBad sampleItems)) :=
  ⟨rfl, rfl, rfl, rfl,
    per_record_failure_isolation benignEnv "a.mrc" sampleItems rfl rfl rfl rfl⟩

/-- The loop's sink trails survive file triage unchanged: whatever the
move flags, the per-file result keeps the loop state's output, audit
trail and raw dump (triage touches only the process log). -/
theorem process_file_proj (env : Env) (filename : String) (items : List ReaderItem)
    (haudit : env.auditOpenFails = false) (hopen : env.fileOpenFails = false) :
    ∃ st', process_records env filename items 0 (initState filename) = .ok st' ∧
      (process_file env filename items).state.output = st'.output ∧
      (process_file env filename items).state.audit = st'.audit ∧
      (process_file env filename items).state.rawDump = st'.rawDump := by
  obtain ⟨st', heq, -⟩ := process_records_spec env filename haudit items 0 (initState filename)
  refine ⟨st', heq, ?_, ?_, ?_⟩ <;>
    rcases hsb : st'.hasErrors <;>
    rcases hmf : env.moveToFailedFails <;>
    rcases hmp : env.moveToProcessedFails <;>
    simp [process_file, hopen, heq, hsb, hmf, hmp, outerExcept, moveToFailedOutcome]

/-- A subfield that passes the source's duck-typed check (truthy, has
both attributes) while having an empty code and a null value. -/
def badSubfield : Subfield :=
  { truthy := true, hasCode := true, hasValue := true, code := "", value := none }

/-- Claim C2 is false on the code: the sanitizer's structural check is
attribute presence plus truthiness (line 75), not code length or value
non-nullity, so a subfield with an empty code and a null value survives
sanitization intact. -/
theorem subfield_sanitization_counterexample :
    validate_and_clean_subfields (Field.varField "245" "10" [badSubfield])
      = Field.varField "245" "10" [badSubfield] ∧
    badSubfield.code = "" ∧
    badSubfield.value = none := by
  refine ⟨?_, rfl, rfl⟩
  simp [validate_and_clean_subfields, subfieldKeep, badSubfield]

/-- Claim C2 as amended: after sanitization a field's subfield list is
exactly the sublist of its original subfields that pass the duck-typed
structural check (truthy object possessing both a `code` and a `value`
attribute); every remaining subfield passes that check, and all
subfields failing it are removed.  The check does not constrain the
code's length or the value's nullity. -/
theorem subfield_sanitization_postcondition (f : Field) :
    subfieldsOf (validate_and_clean_subfields f)
      = (subfieldsOf f).filter subfieldKeep ∧
    (subfieldsOf (validate_and_clean_subfields f)).all
      (fun s => s.truthy && s.hasCode && s.hasValue) = true := by
  cases f with
  | control tag data => exact ⟨rfl, rfl⟩
  | varField tag ind sfs =>
      refine ⟨rfl, ?_⟩
      rw [List.all_eq_true]
      intro s hs
      have hk := (List.mem_filter.mp hs).2
      simpa [subfieldKeep] using hk

/-- A subfield failing the duck-typed check (falsy object). -/
def invalidSubfield : Subfield :=
  { truthy := false, hasCode := true, hasValue := true, code := "a", value := some "x" }

/-- Claim C3: the subfield sanitizer is total and never produces a
record-level failure: processing a successfully decoded record always
takes the success branch of the loop (one text emitted, failure counter
and audit log untouched, the dirty flag unchanged); cleaning preserves
the number and tags of the record's fields (a field is never discarded);
and a variable field all of whose subfields fail the structural check
is retained as an empty field. -/
theorem subfield_nonfatality (env : Env) (filename : String) (index : Nat)
    (r : Record) (raw : List Nat) (st : FileState)
    (tag ind : String) (sfs : List Subfield)
    (hall : sfs.all (fun s => !subfieldKeep s) = true) :
    (∃ st', processRecord env filename index (ReaderItem.ok r raw) st = .ok st' ∧
       st'.output = st.output ++ [renderRecord (clean_record_fields r) ++ "\n\n"] ∧
       st'.audit = st.audit ∧
       st'.recordsFailed = st.recordsFailed ∧
       st'.recordsProcessed = st.recordsProcessed + 1 ∧
       st'.hasErrors = st.hasErrors) ∧
    (clean_record_fields r).fields.length = r.fields.length ∧
    (clean_record_fields r).fields.map Field.tag = r.fields.map Field.tag ∧
    validate_and_clean_subfields (Field.varField tag ind sfs)
      = Field.varField tag ind [] := by
  refine ⟨⟨_, rfl, rfl, rfl, rfl, rfl, rfl⟩, ?_, ?_, ?_⟩
  · simp [clean_record_fields]
  · simp only [clean_record_fields, List.map_map]
    apply List.map_congr_left
    intro f _
    cases f <;> rfl
  · have h : ∀ s ∈ sfs, ¬(subfieldKeep s = true) := by
      intro s hs
      have := List.all_eq_true.mp hall s hs
      simp at this
      simp [this]
    simp [validate_and_clean_subfields, List.filter_eq_nil_iff.mpr h]

/-- Witness for C3 at a concrete record and a concrete all-invalid
subfield list. -/
theorem subfield_nonfatality_witness :
    [invalidSubfield].all (fun s => !subfieldKeep s) = true ∧
    ((∃ st', processRecord benignEnv "a.mrc" 1 (ReaderItem.ok sampleRecord [9])
          (initState "a.mrc") = .ok st' ∧
        st'.output = (initState "a.mrc").output ++
          [renderRecord (clean_record_fields sampleRecord) ++ "\n\n"] ∧
        st'.audit = (initState "a.mrc").audit ∧
        st'.recordsFailed = (initState "a.mrc").recordsFailed ∧
        st'.recordsProcessed = (initState "a.mrc").recordsProcessed + 1 ∧
        st'.hasErrors = (initState "a.mrc").hasErrors) ∧
      (clean_record_fields sampleRecord).fields.length = sampleRecord.fields.length ∧
      (clean_record_fields sampleRecord).fields.map Field.tag
        = sampleRecord.fields.map Field.tag ∧
      validate_and_clean_subfields (Field.varField "500" "  " [invalidSubfield])
        = Field.varField "500" "  " []) :=
  ⟨rfl, subfield_nonfatality benignEnv "a.mrc" 1 sampleRecord [9] (initState "a.mrc")
    "500" "  " [invalidSubfield] rfl⟩

/-- An environment in which only opening the audit log fails. -/
def auditFailEnv : Env :=
  { auditOpenFails := true, rawOpenFails := false, fileOpenFails := false,
    moveToProcessedFails := false, moveToFailedFails := false }

/-- An environment in which only opening the raw-dump artifact fails. -/
def rawFailEnv : Env :=
  { auditOpenFails := false, rawOpenFails := true, fileOpenFails := false,
    moveToProcessedFails := false, moveToFailedFails := false }

/-- Claim C4 is false on the code for the audit-log sink:
`log_failed_record` opens the audit log with no surrounding try/except,
so when that open raises on the failure of record 1, the exception
escapes the record loop and the following good record is skipped — the
same stream under a working audit sink emits it.  (The run is not
aborted: the per-file handler catches the exception.) -/
theorem sink_failure_counterexample :
    (process_file auditFailEnv "a.mrc"
        [ReaderItem.bad "boom" [1, 2], ReaderItem.ok sampleRecord [3]]).state.output
      = [] ∧
    (process_file auditFailEnv "a.mrc"
        [ReaderItem.bad "boom" [1, 2], ReaderItem.ok sampleRecord [3]]).state.recordsProcessed
      = 0 ∧
    (process_file benignEnv "a.mrc"
        [ReaderItem.bad "boom" [1, 2], ReaderItem.ok sampleRecord [3]]).state.recordsProcessed
      = 1 :=
  ⟨rfl, rfl, rfl⟩

/-- Claim C4 as amended: a raw-dump write failure is contained — logged
best-effort to the process log, the raw dump untouched, and the
recovery path still completes so the loop continues; and no sink
failure ever aborts the overall run (every file of the run is still
processed).  An audit-log write failure, however, does escape the
record loop: it is handled by the per-file handler, which skips the
remaining records of the current file. -/
theorem sink_failure_containment (env : Env) (filename : String)
    (raw : List Nat) (index : Nat) (st : FileState) (reason : String)
    (hraw : env.rawOpenFails = true) (haudit : env.auditOpenFails = false) :
    (export_raw_failed_record env raw filename index st).rawDump = st.rawDump ∧
    (export_raw_failed_record env raw filename index st).procLog
      = st.procLog ++
        ["ERROR: Failed to export raw data for record in file " ++ filename,
         "ERROR: Debug Info"] ∧
    (∃ st', processRecord env filename index (ReaderItem.bad reason raw) st = .ok st') ∧
    (∀ (env' : Env) (files : List (String × List ReaderItem)) (fs : OutputFS),
        (process_marc_files env' files fs).2.length = files.length) := by
  refine ⟨?_, ?_, ?_, ?_⟩
  · simp [export_raw_failed_record, hraw]
  · simp [export_raw_failed_record, hraw]
  · cases hlog : log_failed_record env none filename reason (some raw) (some index)
        (export_raw_failed_record env raw filename index st) with
    | error st2 =>
        rw [log_failed_record] at hlog
        simp [haudit] at hlog
    | ok st2 =>
        have hst : processRecord env filename index (ReaderItem.bad reason raw) st
            = .ok { st2 with
                      recordsFailed := st2.recordsFailed + 1,
                      hasErrors := true,
                      procLog := st2.procLog ++ ["ERROR: Debug Info"] } := by
          simp [processRecord, hlog]
        exact ⟨_, hst⟩
  · intro env' files
    induction files with
    | nil => intro fs; rfl
    | cons f rest ih => intro fs; simp [process_marc_files, ih]

/-- Witness for C4 as amended, at a concrete raw-dump-failing
environment and one failed record. -/
theorem sink_failure_containment_witness :
    rawFailEnv.rawOpenFails = true ∧
    rawFailEnv.auditOpenFails = false ∧
    ((export_raw_failed_record rawFailEnv [7, 8] "a.mrc" 1
        (initState "a.mrc")).rawDump = (initState "a.mrc").rawDump ∧
     (export_raw_failed_record rawFailEnv [7, 8] "a.mrc" 1
        (initState "a.mrc")).procLog
       = (initState "a.mrc").procLog ++
         ["ERROR: Failed to export raw data for record in file " ++ "a.mrc",
          "ERROR: Debug Info"] ∧
     (∃ st', processRecord rawFailEnv "a.mrc" 1 (ReaderItem.bad "boom" [7, 8])
        (initState "a.mrc") = .ok st') ∧
     (∀ (env' : Env) (files : List (String × List ReaderItem)) (fs : OutputFS),
        (process_marc_files env' files fs).2.length = files.length)) :=
  ⟨rfl, rfl, sink_failure_containment rawFailEnv "a.mrc" [7, 8] 1
    (initState "a.mrc") "boom" rfl rfl⟩

/-- Claim C5 (Charset Normalizer modelled from the spec, section 4.2):
content already in canonical Unicode form passes through unchanged, so
feeding any normalizer output back in as Unicode text a second time
returns it unchanged — the normalizer never re-decodes canonical
text. -/
theorem idempotent_transcoding (decodeLegacy : List Nat → Option String)
    (i : NormInput) (u : String)
    (h : normalizeCharset decodeLegacy i = some u) :
    normalizeCharset decodeLegacy (NormInput.unicodeText u) = some u ∧
    normalizeCharset decodeLegacy (NormInput.unicodeText u)
      = normalizeCharset decodeLegacy i := by
  constructor
  · simp [normalizeCharset]
  · rw [h]
    simp [normalizeCharset]

/-- Witness for C5 at a concrete decode map and Unicode input. -/
theorem idempotent_transcoding_witness :
    normalizeCharset (fun _ => none) (NormInput.unicodeText "Pride and Prejudice")
      = some "Pride and Prejudice" ∧
    (normalizeCharset (fun _ => none) (NormInput.unicodeText "Pride and Prejudice")
      = some "Pride and Prejudice" ∧
     normalizeCharset (fun _ => none) (NormInput.unicodeText "Pride and Prejudice")
      = normalizeCharset (fun _ => none) (NormInput.unicodeText "Pride and Prejudice")) :=
  ⟨rfl, idempotent_transcoding (fun _ => none)
    (NormInput.unicodeText "Pride and Prejudice") "Pride and Prejudice" rfl⟩

/-- Claim C6: the per-file output is exactly the cleaned textual
renderings of the successful records, in stream order, each followed by
the blank-line separator. -/
theorem order_preservation (env : Env) (filename : String) (items : List ReaderItem)
    (haudit : env.auditOpenFails = false) (hopen : env.fileOpenFails = false) :
    (process_file env filename items).state.output = recordTexts items := by
  obtain ⟨st', heq, hOut, -, -⟩ := process_file_proj env filename items haudit hopen
  obtain ⟨st'', heq', ho, -, -, -, -, -⟩ :=
    process_records_spec env filename haudit items 0 (initState filename)
  rw [heq] at heq'
  cases heq'
  rw [hOut, ho]
  simp [initState]

/-- Witness for C6 at the concrete sample stream. -/
theorem order_preservation_witness :
    benignEnv.auditOpenFails = false ∧
    benignEnv.fileOpenFails = false ∧
    (process_file benignEnv "a.mrc" sampleItems).state.output
      = recordTexts sampleItems :=
  ⟨rfl, rfl, order_preservation benignEnv "a.mrc" sampleItems rfl rfl⟩

/-- Claim C7: the raw-dump artifact accumulates, for each failed record
in order, exactly the bytes the framer consumed for that record
(`reader.current_chunk`), verbatim, preceded by the `File:`/`Record
Index:` text header and followed by the separator line. -/
theorem raw_preservation (env : Env) (filename : String) (items : List ReaderItem)
    (haudit : env.auditOpenFails = false) (hraw : env.rawOpenFails = false)
    (hopen : env.fileOpenFails = false) :
    (process_file env filename items).state.rawDump
      = ((failuresWithIndex items 0).map
          (fun f => rawHeader filename f.1 ++ f.2.2 ++ rawSeparator)).flatten := by
  obtain ⟨st', heq, -, -, hRaw⟩ := process_file_proj env filename items haudit hopen
  obtain ⟨st'', heq', -, -, -, -, -, hr⟩ :=
    process_records_spec env filename haudit items 0 (initState filename)
  rw [heq] at heq'
  cases heq'
  rw [hRaw, hr]
  simp [initState, hraw, rawBlock]

/-- Witness for C7 at the concrete sample stream: one failure at index
2 with raw bytes `[2, 3]`. -/
theorem raw_preservation_witness :
    benignEnv.auditOpenFails = false ∧
    benignEnv.rawOpenFails = false ∧
    benignEnv.fileOpenFails = false ∧
    (process_file benignEnv "a.mrc" sampleItems).state.rawDump
      = ((failuresWithIndex sampleItems 0).map
          (fun f => rawHeader "a.mrc" f.1 ++ f.2.2 ++ rawSeparator)).flatten :=
  ⟨rfl, rfl, rfl, raw_preservation benignEnv "a.mrc" sampleItems rfl rfl rfl⟩

/-- Claim C8: after a file's run, the file is left in place only when
the move to the failed folder itself failed, and then the move failure
is logged; when the moves succeed, the file goes to the processed
folder iff it opened and no record failed, and to the failed folder iff
opening failed or some record failed; and the run always proceeds
through every file. -/
theorem triage_completeness (env : Env) (filename : String) (items : List ReaderItem)
    (haudit : env.auditOpenFails = false) :
    ((process_file env filename items).disposition = Disposition.leftInPlace →
       env.moveToFailedFails = true ∧
       ("ERROR: Failed to move file " ++ filename ++ " to failed folder")
         ∈ (process_file env filename items).state.procLog) ∧
    (env.moveToFailedFails = false → env.moveToProcessedFails = false →
       (((process_file env filename items).disposition = Disposition.processed)
          ↔ (env.fileOpenFails = false ∧ countBad items = 0)) ∧
       (((process_file env filename items).disposition = Disposition.failed)
          ↔ (env.fileOpenFails = true ∨ 0 < countBad items))) ∧
    (∀ (files : List (String × List ReaderItem)) (fs : OutputFS),
        (process_marc_files env files fs).2.length = files.length) := by
  refine ⟨?_, ?_, ?_⟩
  · rcases hfo : env.fileOpenFails with _ | _
    · obtain ⟨st', heq, -⟩ :=
        process_records_spec env filename haudit items 0 (initState filename)
      rcases hsb : st'.hasErrors with _ | _ <;>
        rcases hmf : env.moveToFailedFails with _ | _ <;>
        rcases hmp : env.moveToProcessedFails with _ | _ <;>
        intro hd <;>
        simp [process_file, hfo, heq, hsb, hmf, hmp, outerExcept,
          moveToFailedOutcome] at hd ⊢
    · rcases hmf : env.moveToFailedFails with _ | _ <;>
        intro hd <;>
        simp [process_file, hfo, hmf, outerExcept, moveToFailedOutcome] at hd ⊢
  · intro hmf hmp
    rcases hfo : env.fileOpenFails with _ | _
    · obtain ⟨st', heq, -, -, -, -, he, -⟩ :=
        process_records_spec env filename haudit items 0 (initState filename)
      have he' : st'.hasErrors = decide (0 < countBad items) := by
        simpa [initState] using he
      by_cases h0 : 0 < countBad items
      · constructor <;>
          (simp [process_file, hfo, heq, he', h0, hmf, hmp, outerExcept,
            moveToFailedOutcome]
           try omega)
      · have hz : countBad items = 0 := by omega
        constructor <;>
          simp [process_file, hfo, heq, he', h0, hz, hmf, hmp, outerExcept,
            moveToFailedOutcome]
    · constructor <;>
        simp [process_file, hfo, hmf, hmp, outerExcept, moveToFailedOutcome]
  · intro files
    induction files with
    | nil => intro fs; rfl
    | cons f rest ih => intro fs; simp [process_marc_files, ih]

/-- Witness for C8 at the concrete sample stream (one failure, so the
file goes to the failed folder and the run covers every file). -/
theorem triage_completeness_witness :
    benignEnv.auditOpenFails = false ∧
    (((process_file benignEnv "a.mrc" sampleItems).disposition = Disposition.leftInPlace →
        benignEnv.moveToFailedFails = true ∧
        ("ERROR: Failed to move file " ++ "a.mrc" ++ " to failed folder")
          ∈ (process_file benignEnv "a.mrc" sampleItems).state.procLog) ∧
     (benignEnv.moveToFailedFails = false → benignEnv.moveToProcessedFails = false →
        (((process_file benignEnv "a.mrc" sampleItems).disposition = Disposition.processed)
           ↔ (benignEnv.fileOpenFails = false ∧ countBad sampleItems = 0)) ∧
        (((process_file benignEnv "a.mrc" sampleItems).disposition = Disposition.failed)
           ↔ (benignEnv.fileOpenFails = true ∨ 0 < countBad sampleItems))) ∧
     (∀ (files : List (String × List ReaderItem)) (fs : OutputFS),
        (process_marc_files benignEnv files fs).2.length = files.length)) :=
  ⟨rfl, triage_completeness benignEnv "a.mrc" sampleItems rfl⟩

/-- Claim C9: every audit entry the record-failure path produces
carries the record id written for an absent record — the handler always
passes `record=None` to `log_failed_record` (source line 148), so the
entry's id is the string for an unknown record, never the failed
record's 001 identifier. -/
theorem audit_unknown_id (env : Env) (filename : String) (items : List ReaderItem)
    (entry : AuditEntry) (haudit : env.auditOpenFails = false)
    (h : entry ∈ (process_file env filename items).state.audit) :
    entry.recordId = "Unknown ID" ∧ entry.recordId = uniqueIdOf none := by
  rcases hfo : env.fileOpenFails with _ | _
  · obtain ⟨st', heq, -, hAud, -⟩ := process_file_proj env filename items haudit hfo
    obtain ⟨st'', heq', -, -, ha, -, -, -⟩ :=
      process_records_spec env filename haudit items 0 (initState filename)
    rw [heq] at heq'
    cases heq'
    rw [hAud, ha] at h
    simp only [initState, List.nil_append] at h
    obtain ⟨f, -, hfe⟩ := List.mem_map.mp h
    subst hfe
    exact ⟨rfl, rfl⟩
  · rcases hmf : env.moveToFailedFails with _ | _ <;>
      simp [process_file, hfo, hmf, outerExcept, moveToFailedOutcome, initState] at h

/-- Witness for C9 at the concrete sample stream: its single audit
entry (index 2) carries the unknown-record id. -/
theorem audit_unknown_id_witness :
    benignEnv.auditOpenFails = false ∧
    mkAuditEntry "a.mrc" (2, "decode error", [2, 3])
      ∈ (process_file benignEnv "a.mrc" sampleItems).state.audit ∧
    ((mkAuditEntry "a.mrc" (2, "decode error", [2, 3])).recordId = "Unknown ID" ∧
     (mkAuditEntry "a.mrc" (2, "decode error", [2, 3])).recordId = uniqueIdOf none) :=
  ⟨rfl, by decide,
    audit_unknown_id benignEnv "a.mrc" sampleItems
      (mkAuditEntry "a.mrc" (2, "decode error", [2, 3])) rfl (by decide)⟩

/-- The output filesystem after a run: each path holds its prior
content followed by the appends of the files mapping to it, in run
order. -/
theorem process_marc_files_fs (env : Env) :
    ∀ (files : List (String × List ReaderItem)) (fs : OutputFS) (path : String),
      (process_marc_files env files fs).1 path = fs path ++ runAppends env files path := by
  intro files
  induction files with
  | nil => intro fs path; simp [process_marc_files, runAppends]
  | cons f rest ih =>
      intro fs path
      simp only [process_marc_files, runAppends]
      rw [ih]
      by_cases hp : path = output_filename f.1
      · subst hp
        simp [appendOutput]
      · have hnp : ¬(output_filename f.1 = path) := fun hh => hp hh.symm
        simp [appendOutput, hp, hnp]

/-- Claim C10: the per-file output is opened in append mode and never
cleared at run start — a run leaves any pre-existing content of an
output file as a prefix, re-running the same input appends the same
renderings a second time, and `x.mrc` and `x.marc` both map to the
output file `output/x.txt`. -/
theorem output_append_only (env : Env) (files : List (String × List ReaderItem))
    (fs : OutputFS) (path : String) :
    (process_marc_files env files fs).1 path = fs path ++ runAppends env files path ∧
    (process_marc_files env files ((process_marc_files env files fs).1)).1 path
      = fs path ++ (runAppends env files path ++ runAppends env files path) ∧
    output_filename "x.mrc" = "output/x.txt" ∧
    output_filename "x.marc" = "output/x.txt" := by
  refine ⟨process_marc_files_fs env files fs path, ?_, ?_, ?_⟩
  · rw [process_marc_files_fs, process_marc_files_fs]
    simp [List.append_assoc]
  · rfl
  · rfl

end Marc2Text
